import Mathlib

/-!
Verification development for the gleif-poc repository.

Shallow embedding of the four core components described in the design
documents: the pending-verification registry (`VerificationStateManager`),
the VC codec (`vc/verify.ts`, `vc/sign.ts`, `utils/encoding.ts`), the DID
linkage verifier (`DidLinkingVerifier`) and the DID document publisher
(`KelPublisher`).  JavaScript `Map`s are modelled as association lists,
promises as numeric observer identities together with an explicit
`delivered` event list, timers as explicit transition functions, and
wall-clock reads (`Date.now`, `isoTimestamp`) as parameters.
-/

set_option maxHeartbeats 1000000

namespace GleifPoc

/-! ### Association-list model of a JavaScript `Map` -/

/-- `Map.get` — first binding for the key, if any. -/
def mapGet {α : Type} (m : List (String × α)) (k : String) : Option α :=
  (m.find? (fun p => p.1 == k)).map (fun p => p.2)

/-- `Map.delete` — remove every binding for the key. -/
def mapDelete {α : Type} (m : List (String × α)) (k : String) : List (String × α) :=
  m.filter (fun p => p.1 != k)

/-- `Map.set` — overwrite the binding for the key. -/
def mapSet {α : Type} (m : List (String × α)) (k : String) (v : α) : List (String × α) :=
  (k, v) :: mapDelete m k

theorem mapGet_mapDelete_same {α : Type} (m : List (String × α)) (k : String) :
    mapGet (mapDelete m k) k = none := by
  have h : (mapDelete m k).find? (fun p => p.1 == k) = none := by
    rw [List.find?_eq_none]
    intro x hx
    have h1 := List.of_mem_filter hx
    simp only [bne_iff_ne, ne_eq] at h1
    simp [h1]
  simp [mapGet, h]

theorem mapGet_mapSet_same {α : Type} (m : List (String × α)) (k : String) (v : α) :
    mapGet (mapSet m k v) k = some v := by
  simp [mapGet, mapSet, List.find?]

/-! ### Data model of `VerificationResult` (types/verification.ts) -/

/-- Result from vLEI verification (`VerificationResult` in
`types/verification.ts`). -/
structure VerificationResult where
  verified : Bool
  revoked : Bool
  leAid : String
  leLei : String
  credentialSaid : String
  timestamp : String
  error : Option String := none
  deriving Repr, DecidableEq

/-! ### `VerificationStateManager` (pending-verification registry)

Each `registerPendingVerification` call returns one promise, identified
here by a `Nat`.  The entry's `observers` field models the mutable
`resolve` callback chain (the attach branch wraps the stored `resolve` so
that it first fires the original and then the newly attached one), in
delivery order.  The `timeoutObserver` field models the `resolve`
variable captured lexically by the `setTimeout` callback of the creating
call: that closure refers to the creating promise's executor `resolve`,
not to the (later possibly re-assigned) `pending.resolve` field.
`delivered` records every promise resolution event `(promiseId, value)`.
-/

/-- One in-flight entry of `pendingVerifications` (interface
`PendingVerification`). -/
structure PendingVerification where
  leAid : String
  leLei : String
  credentialSaid : String
  observers : List Nat
  timeoutObserver : Nat
  startTime : Nat
  deriving Repr, DecidableEq

/-- The mutable state owned by one `VerificationStateManager` instance,
plus the `delivered` promise-resolution log used to observe outcomes. -/
structure ManagerState where
  pendingVerifications : List (String × PendingVerification) := []
  completedVerifications : List (String × VerificationResult) := []
  evictionTimers : List (String × Nat) := []
  delivered : List (Nat × VerificationResult) := []
  timeoutMs : Nat := 30000
  deriving Repr, DecidableEq

/-- The timeout error string built by the `setTimeout` callback
(`timeoutMs / 1000` is exact division for the configurations used, where
the window is a whole number of seconds). -/
def timeoutErrorMessage (timeoutMs : Nat) : String :=
  "Verification timeout - no response from Sally within " ++
    toString (timeoutMs / 1000) ++ " seconds"

/-- `registerPendingVerification(credentialSaid, leAid, leLei)`.
`promiseId` identifies the promise created by this call and `nowMs`
models `Date.now()`.  If an entry is live the call attaches as an extra
observer (and the entry's captured identifiers are kept); otherwise a
fresh entry is created whose timeout closure captures this promise. -/
def registerPendingVerification (s : ManagerState)
    (credentialSaid leAid leLei : String) (promiseId : Nat) (nowMs : Nat) :
    ManagerState :=
  match mapGet s.pendingVerifications credentialSaid with
  | some existing =>
    let entry := { existing with observers := existing.observers ++ [promiseId] }
    { s with pendingVerifications := mapSet s.pendingVerifications credentialSaid entry }
  | none =>
    let entry : PendingVerification :=
      { leAid := leAid, leLei := leLei, credentialSaid := credentialSaid,
        observers := [promiseId], timeoutObserver := promiseId, startTime := nowMs }
    { s with pendingVerifications := mapSet s.pendingVerifications credentialSaid entry }

/-- The `setTimeout` callback armed by the entry-creating
`registerPendingVerification` call: if the entry is still live, delete it
and resolve — through the lexically captured executor `resolve`, i.e.
only the creating promise — with the timeout result.  (`clearTimeout` on
explicit resolution is modelled by entry removal: a fire after removal is
a no-op exactly as in the source, which re-checks the map.) -/
def firePendingTimeout (s : ManagerState) (credentialSaid : String)
    (nowTs : String) : ManagerState :=
  match mapGet s.pendingVerifications credentialSaid with
  | none => s
  | some pending =>
    let result : VerificationResult :=
      { verified := false, revoked := false, leAid := pending.leAid,
        leLei := pending.leLei, credentialSaid := pending.credentialSaid,
        timestamp := nowTs, error := some (timeoutErrorMessage s.timeoutMs) }
    { s with
      pendingVerifications := mapDelete s.pendingVerifications credentialSaid,
      delivered := s.delivered ++ [(pending.timeoutObserver, result)] }

/-- `resolveVerification(credentialSaid, verified, revoked)`: false and no
state change when nothing is pending; otherwise remove the entry and fire
the full `pending.resolve` chain (every attached observer). -/
def resolveVerification (s : ManagerState) (credentialSaid : String)
    (verified revoked : Bool) (nowTs : String) : Bool × ManagerState :=
  match mapGet s.pendingVerifications credentialSaid with
  | none => (false, s)
  | some pending =>
    let result : VerificationResult :=
      { verified := verified, revoked := revoked, leAid := pending.leAid,
        leLei := pending.leLei, credentialSaid := pending.credentialSaid,
        timestamp := nowTs, error := none }
    (true,
      { s with
        pendingVerifications := mapDelete s.pendingVerifications credentialSaid,
        delivered := s.delivered ++ pending.observers.map (fun o => (o, result)) })

/-- `COMPLETED_TTL_MS = 5 * 60 * 1000`. -/
def COMPLETED_TTL_MS : Nat := 5 * 60 * 1000

/-- `storeCompletedResult`: overwrite the completed-result entry and arm a
fresh (independent) eviction timer for `nowMs + COMPLETED_TTL_MS`; the
timers already armed by earlier calls are neither cancelled nor
extended. -/
def storeCompletedResult (s : ManagerState) (credentialSaid : String)
    (verified revoked : Bool) (leAid leLei : String)
    (nowTs : String) (nowMs : Nat) : ManagerState :=
  let result : VerificationResult :=
    { verified := verified, revoked := revoked, leAid := leAid, leLei := leLei,
      credentialSaid := credentialSaid, timestamp := nowTs, error := none }
  { s with
    completedVerifications := mapSet s.completedVerifications credentialSaid result,
    evictionTimers := s.evictionTimers ++ [(credentialSaid, nowMs + COMPLETED_TTL_MS)] }

/-- The TTL-cleanup `setTimeout` callback of one `storeCompletedResult`
call: unconditionally delete the completed entry for the hash. -/
def fireEvictionTimer (s : ManagerState) (credentialSaid : String) : ManagerState :=
  { s with completedVerifications := mapDelete s.completedVerifications credentialSaid }

/-- `getCompletedResult` (non-blocking poll). -/
def getCompletedResult (s : ManagerState) (credentialSaid : String) :
    Option VerificationResult :=
  mapGet s.completedVerifications credentialSaid

/-- JS `String.prototype.includes` — substring test. -/
def strIncludes (s sub : String) : Bool :=
  decide (sub.toList <:+: s.toList)

/-! ### Registry theorems -/

/-- Scenario for C1/C6: a fresh registration followed by an attaching
second registration for the same hash, then the deadline fires. -/
def c1s1 : ManagerState :=
  registerPendingVerification { timeoutMs := 30000 } "SAID-1" "aid-1" "lei-1" 0 1000

def c1s2 : ManagerState :=
  registerPendingVerification c1s1 "SAID-1" "aid-2" "lei-2" 1 1500

def c1s3 : ManagerState := firePendingTimeout c1s2 "SAID-1" "ts-1"

/-- C1: the claim says that when a second `registerPendingVerification`
call has attached to a live entry and the deadline fires unresolved, both
attached observers receive the same timeout `CompletedResult`.  Evaluating
the code on that scenario: the timeout callback resolves only the
lexically captured first promise (observer 0); the attached observer 1 is
never delivered anything — the entry is gone, so even a later
`resolveVerification` is a no-op.  This contradicts the claim (and the
evident purpose of the resolve-chaining code in the attach branch). -/
theorem c1_timeout_starves_attached_observer :
    c1s3.delivered =
      [(0, { verified := false, revoked := false, leAid := "aid-1", leLei := "lei-1",
             credentialSaid := "SAID-1", timestamp := "ts-1",
             error := some (timeoutErrorMessage 30000) })] ∧
    c1s3.delivered.all (fun d => d.1 != 1) = true ∧
    mapGet c1s3.pendingVerifications "SAID-1" = none ∧
    (∀ v r ts, resolveVerification c1s3 "SAID-1" v r ts = (false, c1s3)) := by
  refine ⟨by decide, by decide, by decide, ?_⟩
  intro v r ts
  have h : mapGet c1s3.pendingVerifications "SAID-1" = none := by decide
  simp [resolveVerification, h]

/-- C5: at most one terminal delivery per hash — with a live entry,
`resolveVerification` returns `true` and a second call returns `false`
without further change; with no live entry it returns `false` and leaves
the state untouched. -/
theorem c5_resolve_at_most_once (s : ManagerState) (said : String)
    (v₁ r₁ v₂ r₂ : Bool) (t₁ t₂ : String) :
    (mapGet s.pendingVerifications said = none →
      resolveVerification s said v₁ r₁ t₁ = (false, s)) ∧
    (∀ p, mapGet s.pendingVerifications said = some p →
      (resolveVerification s said v₁ r₁ t₁).1 = true ∧
      resolveVerification (resolveVerification s said v₁ r₁ t₁).2 said v₂ r₂ t₂
        = (false, (resolveVerification s said v₁ r₁ t₁).2)) := by
  constructor
  · intro h
    simp [resolveVerification, h]
  · intro p hp
    constructor
    · simp [resolveVerification, hp]
    · simp [resolveVerification, hp, mapGet_mapDelete_same]

/-- Concrete state for the C5 witness: one live entry for hash "h". -/
def c5w : ManagerState :=
  { pendingVerifications :=
      [("h", { leAid := "a", leLei := "l", credentialSaid := "h",
               observers := [0], timeoutObserver := 0, startTime := 0 })] }

theorem c5_resolve_at_most_once_witness :
    (resolveVerification c5w "h" true false "t1").1 = true ∧
    resolveVerification (resolveVerification c5w "h" true false "t1").2 "h" true false "t2"
      = (false, (resolveVerification c5w "h" true false "t1").2) ∧
    resolveVerification { c5w with pendingVerifications := [] } "h" true false "t1"
      = (false, { c5w with pendingVerifications := [] }) := by
  have h₁ := (c5_resolve_at_most_once c5w "h" true false true false "t1" "t2").2
    { leAid := "a", leLei := "l", credentialSaid := "h",
      observers := [0], timeoutObserver := 0, startTime := 0 } (by decide)
  have h₂ := (c5_resolve_at_most_once { c5w with pendingVerifications := [] }
    "h" true false true false "t1" "t2").1 (by decide)
  exact ⟨h₁.1, h₁.2, h₂⟩

/-- Scenario for C6: same shape as C1's but with its own state values. -/
def c6s1 : ManagerState :=
  registerPendingVerification { timeoutMs := 30000 } "SAID-6" "le-aid" "le-lei" 10 0

def c6s2 : ManagerState :=
  registerPendingVerification c6s1 "SAID-6" "other-aid" "other-lei" 11 5

def c6s3 : ManagerState := firePendingTimeout c6s2 "SAID-6" "ts-6"

/-- C6: the claim says every registration with no resolve before the
deadline eventually yields `verified=false` with a non-empty error string
containing the configured timeout value and the registered identifiers.
Evaluating the code: the creating caller (observer 10) does receive
exactly that result — `verified=false`, the captured identifiers, and the
non-empty timeout message (which contains the configured 30-second
window) — but the attached caller (observer 11) receives nothing at all,
contradicting the claim for attached registrations. -/
theorem c6_timeout_delivery_only_to_first :
    c6s3.delivered =
      [(10, { verified := false, revoked := false, leAid := "le-aid", leLei := "le-lei",
              credentialSaid := "SAID-6", timestamp := "ts-6",
              error := some (timeoutErrorMessage 30000) })] ∧
    timeoutErrorMessage 30000 ≠ "" ∧
    strIncludes (timeoutErrorMessage 30000) "30" = true ∧
    c6s3.delivered.all (fun d => d.1 != 11) = true := by
  refine ⟨by decide, by decide, by decide, by decide⟩

/-- C10: a second `storeCompletedResult` for the same hash does not cancel
or extend the first call's eviction timer: after two stores the first
timer `(h, t₁ + TTL)` is still armed, it deletes the (second) stored
result when it fires, and for `t₁ < t₂` that happens strictly before a
full retention window has elapsed since the second store. -/
theorem c10_second_store_evicted_by_first_timer (s0 : ManagerState) (said : String)
    (v₁ r₁ : Bool) (a₁ l₁ ts₁ : String) (t₁ : Nat)
    (v₂ r₂ : Bool) (a₂ l₂ ts₂ : String) (t₂ : Nat) :
    (said, t₁ + COMPLETED_TTL_MS) ∈
      (storeCompletedResult (storeCompletedResult s0 said v₁ r₁ a₁ l₁ ts₁ t₁)
        said v₂ r₂ a₂ l₂ ts₂ t₂).evictionTimers ∧
    getCompletedResult (storeCompletedResult (storeCompletedResult s0 said v₁ r₁ a₁ l₁ ts₁ t₁)
        said v₂ r₂ a₂ l₂ ts₂ t₂) said =
      some { verified := v₂, revoked := r₂, leAid := a₂, leLei := l₂,
             credentialSaid := said, timestamp := ts₂, error := none } ∧
    getCompletedResult (fireEvictionTimer
      (storeCompletedResult (storeCompletedResult s0 said v₁ r₁ a₁ l₁ ts₁ t₁)
        said v₂ r₂ a₂ l₂ ts₂ t₂) said) said = none ∧
    (t₁ < t₂ → t₁ + COMPLETED_TTL_MS < t₂ + COMPLETED_TTL_MS) := by
  refine ⟨?_, ?_, ?_, ?_⟩
  · simp [storeCompletedResult]
  · simp [getCompletedResult, storeCompletedResult, mapGet_mapSet_same]
  · simp [getCompletedResult, fireEvictionTimer, mapGet_mapDelete_same]
  · intro h
    omega

theorem c10_second_store_evicted_by_first_timer_witness :
    (100 : Nat) < 200 ∧
    ("h", 100 + COMPLETED_TTL_MS) ∈
      (storeCompletedResult (storeCompletedResult {} "h" true false "a" "l" "ts1" 100)
        "h" false false "a2" "l2" "ts2" 200).evictionTimers ∧
    100 + COMPLETED_TTL_MS < 200 + COMPLETED_TTL_MS := by
  have h := c10_second_store_evicted_by_first_timer {} "h" true false "a" "l" "ts1" 100
    false false "a2" "l2" "ts2" 200
  exact ⟨by decide, h.1, h.2.2.2 (by decide)⟩

/-! ### VC codec — base64url layer (utils/encoding.ts)

Byte sequences (`Uint8Array` contents, binary-string char codes) are
`List Nat` with every element `< 256`; JS strings handled at the char
level are `List Char`.  `btoa`/`atob` are the platform functions the
source calls, modelled by the standard (forgiving) base64 algorithm. -/

/-- The standard base64 alphabet used by `btoa`/`atob`. -/
def base64Chars : List Char :=
  ['A', 'B', 'C', 'D', 'E', 'F', 'G', 'H', 'I', 'J', 'K', 'L', 'M',
   'N', 'O', 'P', 'Q', 'R', 'S', 'T', 'U', 'V', 'W', 'X', 'Y', 'Z',
   'a', 'b', 'c', 'd', 'e', 'f', 'g', 'h', 'i', 'j', 'k', 'l', 'm',
   'n', 'o', 'p', 'q', 'r', 's', 't', 'u', 'v', 'w', 'x', 'y', 'z',
   '0', '1', '2', '3', '4', '5', '6', '7', '8', '9', '+', '/']

/-- The alphabet char for a 6-bit value. -/
def b64Char (n : Nat) : Char := base64Chars.getD n '?'

/-- The 6-bit value of an alphabet char (`none` for a foreign char). -/
def b64Val (c : Char) : Option Nat := base64Chars.indexOf? c

/-- `btoa` on the byte list underlying the JS binary string: standard
base64, 3 bytes per 4 chars, '='-padded final group. -/
def btoa : List Nat → List Char
  | [] => []
  | [b₁] => [b64Char (b₁ / 4), b64Char (b₁ % 4 * 16), '=', '=']
  | [b₁, b₂] =>
    [b64Char (b₁ / 4), b64Char (b₁ % 4 * 16 + b₂ / 16), b64Char (b₂ % 16 * 4), '=']
  | b₁ :: b₂ :: b₃ :: rest =>
    b64Char (b₁ / 4) :: b64Char (b₁ % 4 * 16 + b₂ / 16) ::
      b64Char (b₂ % 16 * 4 + b₃ / 64) :: b64Char (b₃ % 64) :: btoa rest

/-- The '+'→'-', '/'→'_' replacement of `bytesToBase64url`. -/
def toUrlChar (c : Char) : Char :=
  if c = '+' then '-' else if c = '/' then '_' else c

/-- `bytesToBase64url` (utils/encoding.ts): `btoa`, replace '+' and '/',
remove all '=' padding. -/
def bytesToBase64url (bytes : List Nat) : List Char :=
  ((btoa bytes).map toUrlChar).filter (fun c => c != '=')

/-- ASCII whitespace removed by forgiving-base64. -/
def isAsciiWhitespace (c : Char) : Bool :=
  c == '\t' || c == '\n' || c == Char.ofNat 12 || c == '\r' || c == ' '

/-- Forgiving-base64 padding removal: up to two trailing '=' when the
length is a multiple of 4. -/
def stripBase64Padding (s : List Char) : List Char :=
  if s.length % 4 = 0 then
    if s.getLast? = some '=' then
      if s.dropLast.getLast? = some '=' then s.dropLast.dropLast else s.dropLast
    else s
  else s

/-- Decode base64 groups: full 4-char groups, a final 3- or 2-char group;
anything else (including any foreign char) fails. -/
def b64DecodeChars : List Char → Option (List Nat)
  | [] => some []
  | [c₁, c₂] => do
    let v₁ ← b64Val c₁
    let v₂ ← b64Val c₂
    some [v₁ * 4 + v₂ / 16]
  | [c₁, c₂, c₃] => do
    let v₁ ← b64Val c₁
    let v₂ ← b64Val c₂
    let v₃ ← b64Val c₃
    some [v₁ * 4 + v₂ / 16, v₂ % 16 * 16 + v₃ / 4]
  | c₁ :: c₂ :: c₃ :: c₄ :: rest => do
    let v₁ ← b64Val c₁
    let v₂ ← b64Val c₂
    let v₃ ← b64Val c₃
    let v₄ ← b64Val c₄
    let tail ← b64DecodeChars rest
    some ((v₁ * 4 + v₂ / 16) :: (v₂ % 16 * 16 + v₃ / 4) :: (v₃ % 4 * 64 + v₄) :: tail)
  | _ => none

/-- `atob` (forgiving-base64); `none` models the thrown
`InvalidCharacterError`. -/
def atob (s : List Char) : Option (List Nat) :=
  b64DecodeChars (stripBase64Padding (s.filter (fun c => !isAsciiWhitespace c)))

/-- The '-'→'+', '_'→'/' replacement of `base64urlToBytes`. -/
def fromUrlChar (c : Char) : Char :=
  if c = '-' then '+' else if c = '_' then '/' else c

/-- `base64urlToBytes` (utils/encoding.ts): pad with '=' to a multiple of
4, convert to standard base64, then `atob`. -/
def base64urlToBytes (s : List Char) : Option (List Nat) :=
  atob ((s ++ List.replicate ((4 - s.length % 4) % 4) '=').map fromUrlChar)

/-! ### VC codec — JWT layer (vc/sign.ts, vc/verify.ts) -/

/-- JS `jwt.split('.')`. -/
def splitOnDot : List Char → List (List Char)
  | [] => [[]]
  | c :: rest =>
    if c = '.' then [] :: splitOnDot rest
    else
      match splitOnDot rest with
      | [] => [[c]]
      | seg :: segs => (c :: seg) :: segs

/-- Decoded JWT components (interface `DecodedVcJwt`), generic in the
values produced by the `JSON.parse` stage. -/
structure DecodedVcJwt (H P : Type) where
  header : H
  payload : P
  signature : List Nat
  signingInput : List Char
  deriving Repr, DecidableEq

/-- `decodeVcJwt` (vc/verify.ts): exactly three '.'-separated segments or
a thrown error; each segment is base64url-decoded, and the
`TextDecoder` + `JSON.parse` stage is the `parseHeader`/`parsePayload`
parameter, applied in source order.  `signingInput` is
`parts[0] ++ "." ++ parts[1]`. -/
def decodeVcJwt {H P : Type} (parseHeader : List Nat → Except String H)
    (parsePayload : List Nat → Except String P) (jwt : List Char) :
    Except String (DecodedVcJwt H P) :=
  match splitOnDot jwt with
  | [p₀, p₁, p₂] =>
    match base64urlToBytes p₀ with
    | none => .error "InvalidCharacterError"
    | some headerBytes =>
      match parseHeader headerBytes with
      | .error e => .error e
      | .ok header =>
        match base64urlToBytes p₁ with
        | none => .error "InvalidCharacterError"
        | some payloadBytes =>
          match parsePayload payloadBytes with
          | .error e => .error e
          | .ok payload =>
            match base64urlToBytes p₂ with
            | none => .error "InvalidCharacterError"
            | some signature =>
              .ok { header := header, payload := payload, signature := signature,
                    signingInput := p₀ ++ '.' :: p₁ }
  | _ => .error "Invalid JWT: expected 3 parts"

/-- `encodeVcAsJwt` (vc/sign.ts):
`base64url(bytes(header)) ++ "." ++ base64url(bytes(payload))`; the
`JSON.stringify` + `TextEncoder.encode` serialization stage is the
`stringifyHeader`/`stringifyPayload` parameter. -/
def encodeVcAsJwt {H P : Type} (stringifyHeader : H → List Nat)
    (stringifyPayload : P → List Nat) (header : H) (payload : P) : List Char :=
  bytesToBase64url (stringifyHeader header) ++
    '.' :: bytesToBase64url (stringifyPayload payload)

/-- `assembleSignedJwt` (vc/sign.ts): append the base64url signature as a
third segment. -/
def assembleSignedJwt (unsignedJwt : List Char) (signatureBytes : List Nat) : List Char :=
  unsignedJwt ++ '.' :: bytesToBase64url signatureBytes

/-- The `linkage` object of the VC claim (vc/sign.ts `VcClaim`). -/
structure VcLinkage where
  didWebs : String
  didIota : String
  lei : String
  designatedAliasesSaid : String
  deriving Repr, DecidableEq

/-- The W3C `vc` claim (vc/sign.ts `VcClaim`). -/
structure VcClaim where
  context : List String
  type : List String
  credentialSubjectId : String
  linkage : VcLinkage
  deriving Repr, DecidableEq

/-- JWT payload (vc/sign.ts `LinkageVcPayload`).  The timestamp fields
are `some` exactly when the JSON value carries them as numbers (the
declared TS type requires them, but `isVcExpired` re-checks `typeof`
because `JSON.parse` enforces nothing). -/
structure LinkageVcPayload where
  iss : String
  sub : String
  jti : String
  nbf : Option Int
  iat : Option Int
  exp : Option Int
  vc : VcClaim
  deriving Repr, DecidableEq

/-- JWT header (vc/sign.ts `VcJwtHeader`). -/
structure VcJwtHeader where
  alg : String
  kid : String
  typ : String
  deriving Repr, DecidableEq

/-- The not-before guard of `isVcExpired`:
`typeof payload.nbf === 'number' && now < payload.nbf`. -/
def nbfRejects (now : Int) : Option Int → Bool
  | some nbf => now < nbf
  | none => false

/-- The expiry guard of `isVcExpired`:
`typeof payload.exp === 'number' && now > payload.exp`. -/
def expRejects (now : Int) : Option Int → Bool
  | some e => e < now
  | none => false

/-- `isVcExpired` (vc/verify.ts): decode (propagating its throw), then
expired iff the `nbf` or `exp` guard fires;
`now = Math.floor(Date.now() / 1000)` is a parameter. -/
def isVcExpired {H : Type} (parseHeader : List Nat → Except String H)
    (parsePayload : List Nat → Except String LinkageVcPayload)
    (now : Int) (jwt : List Char) : Except String Bool :=
  match decodeVcJwt parseHeader parsePayload jwt with
  | .error e => .error e
  | .ok d => .ok (nbfRejects now d.payload.nbf || expRejects now d.payload.exp)

/-- `verifyVcSignature` (vc/verify.ts): `false` when expired (fail fast),
otherwise decode again and hand signature + signing input to the
WebCrypto Ed25519 verifier, modelled by the `cryptoVerify` parameter;
a decode throw propagates as an error, never as a `true` result. -/
def verifyVcSignature {H : Type} (parseHeader : List Nat → Except String H)
    (parsePayload : List Nat → Except String LinkageVcPayload)
    (cryptoVerify : List Nat → List Nat → List Char → Bool)
    (now : Int) (publicKeyBytes : List Nat) (jwt : List Char) : Except String Bool :=
  match isVcExpired parseHeader parsePayload now jwt with
  | .error e => .error e
  | .ok true => .ok false
  | .ok false =>
    match decodeVcJwt parseHeader parsePayload jwt with
    | .error e => .error e
    | .ok d => .ok (cryptoVerify publicKeyBytes d.signature d.signingInput)

/-! ### Codec lemmas -/

theorem b64Val_b64Char {n : Nat} (h : n < 64) : b64Val (b64Char n) = some n := by
  have hall : ∀ m ∈ List.range 64, b64Val (b64Char m) = some m := by decide
  exact hall n (List.mem_range.mpr h)

theorem b64Char_facts {n : Nat} (h : n < 64) :
    fromUrlChar (toUrlChar (b64Char n)) = b64Char n ∧
    (toUrlChar (b64Char n) != '=') = true ∧
    toUrlChar (b64Char n) ≠ '.' ∧
    isAsciiWhitespace (b64Char n) = false ∧
    b64Char n ≠ '=' := by
  have hall : ∀ m ∈ List.range 64,
      fromUrlChar (toUrlChar (b64Char m)) = b64Char m ∧
      (toUrlChar (b64Char m) != '=') = true ∧
      toUrlChar (b64Char m) ≠ '.' ∧
      isAsciiWhitespace (b64Char m) = false ∧
      b64Char m ≠ '=' := by decide
  exact hall n (List.mem_range.mpr h)

theorem urlEnc_one (b₁ : Nat) (h₁ : b₁ < 256) :
    bytesToBase64url [b₁] =
      [toUrlChar (b64Char (b₁ / 4)), toUrlChar (b64Char (b₁ % 4 * 16))] := by
  have f₁ := b64Char_facts (show b₁ / 4 < 64 by omega)
  have f₂ := b64Char_facts (show b₁ % 4 * 16 < 64 by omega)
  have he : toUrlChar '=' = '=' := rfl
  simp [bytesToBase64url, btoa, he, List.filter_cons, f₁.2.1, f₂.2.1]

theorem urlEnc_two (b₁ b₂ : Nat) (h₁ : b₁ < 256) (h₂ : b₂ < 256) :
    bytesToBase64url [b₁, b₂] =
      [toUrlChar (b64Char (b₁ / 4)), toUrlChar (b64Char (b₁ % 4 * 16 + b₂ / 16)),
       toUrlChar (b64Char (b₂ % 16 * 4))] := by
  have f₁ := b64Char_facts (show b₁ / 4 < 64 by omega)
  have f₂ := b64Char_facts (show b₁ % 4 * 16 + b₂ / 16 < 64 by omega)
  have f₃ := b64Char_facts (show b₂ % 16 * 4 < 64 by omega)
  have he : toUrlChar '=' = '=' := rfl
  simp [bytesToBase64url, btoa, he, List.filter_cons, f₁.2.1, f₂.2.1, f₃.2.1]

theorem urlEnc_cons3 (b₁ b₂ b₃ : Nat) (rest : List Nat)
    (h₁ : b₁ < 256) (h₂ : b₂ < 256) (h₃ : b₃ < 256) :
    bytesToBase64url (b₁ :: b₂ :: b₃ :: rest) =
      toUrlChar (b64Char (b₁ / 4)) :: toUrlChar (b64Char (b₁ % 4 * 16 + b₂ / 16)) ::
      toUrlChar (b64Char (b₂ % 16 * 4 + b₃ / 64)) :: toUrlChar (b64Char (b₃ % 64)) ::
      bytesToBase64url rest := by
  have f₁ := b64Char_facts (show b₁ / 4 < 64 by omega)
  have f₂ := b64Char_facts (show b₁ % 4 * 16 + b₂ / 16 < 64 by omega)
  have f₃ := b64Char_facts (show b₂ % 16 * 4 + b₃ / 64 < 64 by omega)
  have f₄ := b64Char_facts (show b₃ % 64 < 64 by omega)
  simp [bytesToBase64url, btoa, List.filter_cons, f₁.2.1, f₂.2.1, f₃.2.1, f₄.2.1]

theorem btoa_length_mod4 : ∀ bs : List Nat, (btoa bs).length % 4 = 0
  | [] => by simp [btoa]
  | [b₁] => by simp [btoa]
  | [b₁, b₂] => by simp [btoa]
  | b₁ :: b₂ :: b₃ :: rest => by
    have ih := btoa_length_mod4 rest
    simp only [btoa, List.length_cons]
    omega

theorem btoa_ne_nil : ∀ bs : List Nat, bs ≠ [] → btoa bs ≠ []
  | [], h => absurd rfl h
  | [b₁], _ => by simp [btoa]
  | [b₁, b₂], _ => by simp [btoa]
  | b₁ :: b₂ :: b₃ :: rest, _ => by simp [btoa]

theorem btoa_no_ws : ∀ bs : List Nat, (∀ b ∈ bs, b < 256) →
    ∀ c ∈ btoa bs, isAsciiWhitespace c = false
  | [], _ => by simp [btoa]
  | [b₁], h => by
    have f₁ := b64Char_facts (show b₁ / 4 < 64 by have := h b₁ (by simp); omega)
    have f₂ := b64Char_facts
      (show b₁ % 4 * 16 < 64 by have := h b₁ (by simp); omega)
    intro c hc
    simp only [btoa, List.mem_cons, List.not_mem_nil, or_false] at hc
    rcases hc with rfl | rfl | rfl | rfl
    · exact f₁.2.2.2.1
    · exact f₂.2.2.2.1
    · rfl
    · rfl
  | [b₁, b₂], h => by
    have hb₁ := h b₁ (by simp)
    have hb₂ := h b₂ (by simp)
    have f₁ := b64Char_facts (show b₁ / 4 < 64 by omega)
    have f₂ := b64Char_facts (show b₁ % 4 * 16 + b₂ / 16 < 64 by omega)
    have f₃ := b64Char_facts (show b₂ % 16 * 4 < 64 by omega)
    intro c hc
    simp only [btoa, List.mem_cons, List.not_mem_nil, or_false] at hc
    rcases hc with rfl | rfl | rfl | rfl
    · exact f₁.2.2.2.1
    · exact f₂.2.2.2.1
    · exact f₃.2.2.2.1
    · rfl
  | b₁ :: b₂ :: b₃ :: rest, h => by
    have hb₁ := h b₁ (by simp)
    have hb₂ := h b₂ (by simp)
    have hb₃ := h b₃ (by simp)
    have f₁ := b64Char_facts (show b₁ / 4 < 64 by omega)
    have f₂ := b64Char_facts (show b₁ % 4 * 16 + b₂ / 16 < 64 by omega)
    have f₃ := b64Char_facts (show b₂ % 16 * 4 + b₃ / 64 < 64 by omega)
    have f₄ := b64Char_facts (show b₃ % 64 < 64 by omega)
    have ih := btoa_no_ws rest (fun b hb => h b (by simp [hb]))
    intro c hc
    simp only [btoa, List.mem_cons] at hc
    rcases hc with rfl | rfl | rfl | rfl | hc
    · exact f₁.2.2.2.1
    · exact f₂.2.2.2.1
    · exact f₃.2.2.2.1
    · exact f₄.2.2.2.1
    · exact ih c hc

theorem stripBase64Padding_append (xs t : List Char)
    (hxs : xs.length % 4 = 0) (ht : t.length % 4 = 0) (htne : t ≠ []) :
    stripBase64Padding (xs ++ t) = xs ++ stripBase64Padding t := by
  have ht4 : 4 ≤ t.length := by
    rcases t with _ | ⟨a, t'⟩
    · exact absurd rfl htne
    · simp at ht ⊢
      omega
  have hlen : (xs ++ t).length % 4 = 0 := by
    simp only [List.length_append]
    omega
  have hdne : t.dropLast ≠ [] := by
    have : t.dropLast.length = t.length - 1 := List.length_dropLast t
    intro hnil
    rw [hnil] at this
    simp at this
    omega
  have hg : (xs ++ t).getLast? = t.getLast? := List.getLast?_append_of_ne_nil xs htne
  have hd : (xs ++ t).dropLast = xs ++ t.dropLast := List.dropLast_append_of_ne_nil xs htne
  have hg₂ : (xs ++ t.dropLast).getLast? = t.dropLast.getLast? :=
    List.getLast?_append_of_ne_nil xs hdne
  have hd₂ : (xs ++ t.dropLast).dropLast = xs ++ t.dropLast.dropLast :=
    List.dropLast_append_of_ne_nil xs hdne
  simp only [stripBase64Padding, hlen, ht, if_pos rfl, hg, hd, hg₂, hd₂]
  by_cases h₁ : t.getLast? = some '='
  · by_cases h₂ : t.dropLast.getLast? = some '='
    · simp [h₁, h₂]
    · simp [h₁, h₂]
  · simp [h₁]

theorem strip_two_pad (c₁ c₂ : Char) :
    stripBase64Padding [c₁, c₂, '=', '='] = [c₁, c₂] := by
  have h2 : ([c₁, c₂, '=', '='] : List Char).getLast? = some '=' := rfl
  have h3 : ([c₁, c₂, '=', '='] : List Char).dropLast = [c₁, c₂, '='] := rfl
  have h4 : ([c₁, c₂, '='] : List Char).getLast? = some '=' := rfl
  have h5 : ([c₁, c₂, '='] : List Char).dropLast = [c₁, c₂] := rfl
  simp [stripBase64Padding, h2, h3, h4, h5]

theorem strip_one_pad (c₁ c₂ c₃ : Char) (h₃ : c₃ ≠ '=') :
    stripBase64Padding [c₁, c₂, c₃, '='] = [c₁, c₂, c₃] := by
  have h2 : ([c₁, c₂, c₃, '='] : List Char).getLast? = some '=' := rfl
  have h3 : ([c₁, c₂, c₃, '='] : List Char).dropLast = [c₁, c₂, c₃] := rfl
  have h4 : ([c₁, c₂, c₃] : List Char).getLast? = some c₃ := rfl
  simp [stripBase64Padding, h2, h3, h4, h₃]

theorem strip_no_pad (c₁ c₂ c₃ c₄ : Char) (h₄ : c₄ ≠ '=') :
    stripBase64Padding [c₁, c₂, c₃, c₄] = [c₁, c₂, c₃, c₄] := by
  have h2 : ([c₁, c₂, c₃, c₄] : List Char).getLast? = some c₄ := rfl
  simp [stripBase64Padding, h2, h₄]

theorem atob_btoa : ∀ bs : List Nat, (∀ b ∈ bs, b < 256) → atob (btoa bs) = some bs
  | [], _ => by decide
  | [b₁], h => by
    have hb₁ := h b₁ (by simp)
    have f₁ := b64Char_facts (show b₁ / 4 < 64 by omega)
    have f₂ := b64Char_facts (show b₁ % 4 * 16 < 64 by omega)
    have v₁ := b64Val_b64Char (show b₁ / 4 < 64 by omega)
    have v₂ := b64Val_b64Char (show b₁ % 4 * 16 < 64 by omega)
    have hwse : isAsciiWhitespace '=' = false := rfl
    have e₁ : b₁ / 4 * 4 + b₁ % 4 * 16 / 16 = b₁ := by omega
    simp only [btoa, atob, List.filter_cons, f₁.2.2.2.1, f₂.2.2.2.1, hwse,
      Bool.not_false, if_pos, List.filter_nil, strip_two_pad, b64DecodeChars,
      v₁, v₂, Option.bind_eq_bind, Option.some_bind, e₁]
  | [b₁, b₂], h => by
    have hb₁ := h b₁ (by simp)
    have hb₂ := h b₂ (by simp)
    have f₁ := b64Char_facts (show b₁ / 4 < 64 by omega)
    have f₂ := b64Char_facts (show b₁ % 4 * 16 + b₂ / 16 < 64 by omega)
    have f₃ := b64Char_facts (show b₂ % 16 * 4 < 64 by omega)
    have v₁ := b64Val_b64Char (show b₁ / 4 < 64 by omega)
    have v₂ := b64Val_b64Char (show b₁ % 4 * 16 + b₂ / 16 < 64 by omega)
    have v₃ := b64Val_b64Char (show b₂ % 16 * 4 < 64 by omega)
    have hwse : isAsciiWhitespace '=' = false := rfl
    have hstrip := strip_one_pad (b64Char (b₁ / 4)) (b64Char (b₁ % 4 * 16 + b₂ / 16))
      (b64Char (b₂ % 16 * 4)) f₃.2.2.2.2
    have e₁ : b₁ / 4 * 4 + (b₁ % 4 * 16 + b₂ / 16) / 16 = b₁ := by omega
    have e₂ : (b₁ % 4 * 16 + b₂ / 16) % 16 * 16 + b₂ % 16 * 4 / 4 = b₂ := by omega
    simp only [btoa, atob, List.filter_cons, f₁.2.2.2.1, f₂.2.2.2.1, f₃.2.2.2.1, hwse,
      Bool.not_false, if_pos, List.filter_nil, hstrip, b64DecodeChars,
      v₁, v₂, v₃, Option.bind_eq_bind, Option.some_bind, e₁, e₂]
  | b₁ :: b₂ :: b₃ :: rest, h => by
    have hb₁ := h b₁ (by simp)
    have hb₂ := h b₂ (by simp)
    have hb₃ := h b₃ (by simp)
    have hrest : ∀ b ∈ rest, b < 256 := fun b hb => h b (by simp [hb])
    have f₁ := b64Char_facts (show b₁ / 4 < 64 by omega)
    have f₂ := b64Char_facts (show b₁ % 4 * 16 + b₂ / 16 < 64 by omega)
    have f₃ := b64Char_facts (show b₂ % 16 * 4 + b₃ / 64 < 64 by omega)
    have f₄ := b64Char_facts (show b₃ % 64 < 64 by omega)
    have v₁ := b64Val_b64Char (show b₁ / 4 < 64 by omega)
    have v₂ := b64Val_b64Char (show b₁ % 4 * 16 + b₂ / 16 < 64 by omega)
    have v₃ := b64Val_b64Char (show b₂ % 16 * 4 + b₃ / 64 < 64 by omega)
    have v₄ := b64Val_b64Char (show b₃ % 64 < 64 by omega)
    have hfrest : (btoa rest).filter (fun c => !isAsciiWhitespace c) = btoa rest := by
      rw [List.filter_eq_self]
      intro c hc
      simp [btoa_no_ws rest hrest c hc]
    have e₁ : b₁ / 4 * 4 + (b₁ % 4 * 16 + b₂ / 16) / 16 = b₁ := by omega
    have e₂ : (b₁ % 4 * 16 + b₂ / 16) % 16 * 16 + (b₂ % 16 * 4 + b₃ / 64) / 4 = b₂ := by
      omega
    have e₃ : (b₂ % 16 * 4 + b₃ / 64) % 4 * 64 + b₃ % 64 = b₃ := by omega
    have ih := atob_btoa rest hrest
    rw [atob, hfrest] at ih
    by_cases hne : rest = []
    · subst hne
      simp only [btoa, atob, List.filter_cons, f₁.2.2.2.1, f₂.2.2.2.1, f₃.2.2.2.1,
        f₄.2.2.2.1, Bool.not_false, if_pos, List.filter_nil, List.append_nil,
        strip_no_pad _ _ _ _ f₄.2.2.2.2, b64DecodeChars,
        v₁, v₂, v₃, v₄, Option.bind_eq_bind, Option.some_bind, e₁, e₂, e₃]
    · have hbne : btoa rest ≠ [] := btoa_ne_nil rest hne
      have hchunk : btoa (b₁ :: b₂ :: b₃ :: rest) =
          [b64Char (b₁ / 4), b64Char (b₁ % 4 * 16 + b₂ / 16),
           b64Char (b₂ % 16 * 4 + b₃ / 64), b64Char (b₃ % 64)] ++ btoa rest := by
        simp [btoa]
      have hsplit := stripBase64Padding_append
        [b64Char (b₁ / 4), b64Char (b₁ % 4 * 16 + b₂ / 16),
         b64Char (b₂ % 16 * 4 + b₃ / 64), b64Char (b₃ % 64)] (btoa rest)
        (by simp) (btoa_length_mod4 rest) hbne
      rw [atob, hchunk, List.filter_append, hfrest]
      have hfhead : ([b64Char (b₁ / 4), b64Char (b₁ % 4 * 16 + b₂ / 16),
          b64Char (b₂ % 16 * 4 + b₃ / 64), b64Char (b₃ % 64)] : List Char).filter
            (fun c => !isAsciiWhitespace c) =
          [b64Char (b₁ / 4), b64Char (b₁ % 4 * 16 + b₂ / 16),
           b64Char (b₂ % 16 * 4 + b₃ / 64), b64Char (b₃ % 64)] := by
        simp [List.filter_cons, f₁.2.2.2.1, f₂.2.2.2.1, f₃.2.2.2.1, f₄.2.2.2.1]
      rw [hfhead, hsplit]
      simp only [List.cons_append, List.nil_append, b64DecodeChars,
        v₁, v₂, v₃, v₄, Option.bind_eq_bind, Option.some_bind, ih, e₁, e₂, e₃]
      simp [ih]

theorem url_repad : ∀ bs : List Nat, (∀ b ∈ bs, b < 256) →
    ((bytesToBase64url bs ++
      List.replicate ((4 - (bytesToBase64url bs).length % 4) % 4) '=').map fromUrlChar)
      = btoa bs
  | [], _ => by decide
  | [b₁], h => by
    have hb₁ := h b₁ (by simp)
    have f₁ := b64Char_facts (show b₁ / 4 < 64 by omega)
    have f₂ := b64Char_facts (show b₁ % 4 * 16 < 64 by omega)
    rw [urlEnc_one b₁ hb₁]
    simp [btoa, List.replicate, f₁.1, f₂.1]
    rfl
  | [b₁, b₂], h => by
    have hb₁ := h b₁ (by simp)
    have hb₂ := h b₂ (by simp)
    have f₁ := b64Char_facts (show b₁ / 4 < 64 by omega)
    have f₂ := b64Char_facts (show b₁ % 4 * 16 + b₂ / 16 < 64 by omega)
    have f₃ := b64Char_facts (show b₂ % 16 * 4 < 64 by omega)
    rw [urlEnc_two b₁ b₂ hb₁ hb₂]
    simp [btoa, List.replicate, f₁.1, f₂.1, f₃.1]
    rfl
  | b₁ :: b₂ :: b₃ :: rest, h => by
    have hb₁ := h b₁ (by simp)
    have hb₂ := h b₂ (by simp)
    have hb₃ := h b₃ (by simp)
    have hrest : ∀ b ∈ rest, b < 256 := fun b hb => h b (by simp [hb])
    have f₁ := b64Char_facts (show b₁ / 4 < 64 by omega)
    have f₂ := b64Char_facts (show b₁ % 4 * 16 + b₂ / 16 < 64 by omega)
    have f₃ := b64Char_facts (show b₂ % 16 * 4 + b₃ / 64 < 64 by omega)
    have f₄ := b64Char_facts (show b₃ % 64 < 64 by omega)
    have ih := url_repad rest hrest
    rw [urlEnc_cons3 b₁ b₂ b₃ rest hb₁ hb₂ hb₃]
    have hlen : (4 - (toUrlChar (b64Char (b₁ / 4)) :: toUrlChar (b64Char (b₁ % 4 * 16 + b₂ / 16)) ::
        toUrlChar (b64Char (b₂ % 16 * 4 + b₃ / 64)) :: toUrlChar (b64Char (b₃ % 64)) ::
        bytesToBase64url rest).length % 4) % 4
        = (4 - (bytesToBase64url rest).length % 4) % 4 := by
      simp only [List.length_cons]
      omega
    rw [hlen]
    simp only [List.cons_append, List.map_cons, f₁.1, f₂.1, f₃.1, f₄.1, ih]
    simp [btoa]

theorem base64urlToBytes_bytesToBase64url (bs : List Nat) (h : ∀ b ∈ bs, b < 256) :
    base64urlToBytes (bytesToBase64url bs) = some bs := by
  rw [base64urlToBytes, url_repad bs h]
  exact atob_btoa bs h

theorem splitOnDot_ne_nil : ∀ s : List Char, splitOnDot s ≠ []
  | [] => by simp [splitOnDot]
  | c :: rest => by
    simp only [splitOnDot]
    split
    · simp
    · split <;> simp

theorem splitOnDot_no_dot : ∀ s : List Char, (∀ c ∈ s, c ≠ '.') → splitOnDot s = [s]
  | [], _ => rfl
  | c :: rest, h => by
    have hc : c ≠ '.' := h c (by simp)
    have ih := splitOnDot_no_dot rest (fun x hx => h x (by simp [hx]))
    simp only [splitOnDot, if_neg hc, ih]

theorem splitOnDot_append : ∀ s t : List Char, (∀ c ∈ s, c ≠ '.') →
    splitOnDot (s ++ '.' :: t) = s :: splitOnDot t
  | [], t, _ => by simp [splitOnDot]
  | c :: rest, t, h => by
    have hc : c ≠ '.' := h c (by simp)
    have ih := splitOnDot_append rest t (fun x hx => h x (by simp [hx]))
    simp only [List.cons_append, splitOnDot, if_neg hc]
    rw [show rest.append ('.' :: t) = rest ++ '.' :: t from rfl, ih]

theorem urlEnc_no_dot : ∀ bs : List Nat, (∀ b ∈ bs, b < 256) →
    ∀ c ∈ bytesToBase64url bs, c ≠ '.'
  | [], _ => by simp [bytesToBase64url, btoa]
  | [b₁], h => by
    have hb₁ := h b₁ (by simp)
    have f₁ := b64Char_facts (show b₁ / 4 < 64 by omega)
    have f₂ := b64Char_facts (show b₁ % 4 * 16 < 64 by omega)
    rw [urlEnc_one b₁ hb₁]
    intro c hc
    rcases (by simpa using hc : c = _ ∨ c = _) with rfl | rfl
    · exact f₁.2.2.1
    · exact f₂.2.2.1
  | [b₁, b₂], h => by
    have hb₁ := h b₁ (by simp)
    have hb₂ := h b₂ (by simp)
    have f₁ := b64Char_facts (show b₁ / 4 < 64 by omega)
    have f₂ := b64Char_facts (show b₁ % 4 * 16 + b₂ / 16 < 64 by omega)
    have f₃ := b64Char_facts (show b₂ % 16 * 4 < 64 by omega)
    rw [urlEnc_two b₁ b₂ hb₁ hb₂]
    intro c hc
    rcases (by simpa using hc : c = _ ∨ c = _ ∨ c = _) with rfl | rfl | rfl
    · exact f₁.2.2.1
    · exact f₂.2.2.1
    · exact f₃.2.2.1
  | b₁ :: b₂ :: b₃ :: rest, h => by
    have hb₁ := h b₁ (by simp)
    have hb₂ := h b₂ (by simp)
    have hb₃ := h b₃ (by simp)
    have hrest : ∀ b ∈ rest, b < 256 := fun b hb => h b (by simp [hb])
    have f₁ := b64Char_facts (show b₁ / 4 < 64 by omega)
    have f₂ := b64Char_facts (show b₁ % 4 * 16 + b₂ / 16 < 64 by omega)
    have f₃ := b64Char_facts (show b₂ % 16 * 4 + b₃ / 64 < 64 by omega)
    have f₄ := b64Char_facts (show b₃ % 64 < 64 by omega)
    have ih := urlEnc_no_dot rest hrest
    rw [urlEnc_cons3 b₁ b₂ b₃ rest hb₁ hb₂ hb₃]
    intro c hc
    rcases (by simpa using hc : c = _ ∨ c = _ ∨ c = _ ∨ c = _ ∨ c ∈ bytesToBase64url rest)
      with rfl | rfl | rfl | rfl | hmem
    · exact f₁.2.2.1
    · exact f₂.2.2.1
    · exact f₃.2.2.1
    · exact f₄.2.2.1
    · exact ih c hmem

/-- C8: VC codec round trip — for every header `h`, payload `p` (through
any `JSON.stringify`-stage serialization) and signature byte string,
`decodeVcJwt (assembleSignedJwt (encodeVcAsJwt h p) sig)` recovers the
serialized header and payload byte-for-byte, together with the signature
bytes and the original two-segment signing input. -/
theorem c8_vc_codec_roundtrip {H P : Type}
    (stringifyHeader : H → List Nat) (stringifyPayload : P → List Nat)
    (header : H) (payload : P) (sig : List Nat)
    (hh : ∀ b ∈ stringifyHeader header, b < 256)
    (hp : ∀ b ∈ stringifyPayload payload, b < 256)
    (hs : ∀ b ∈ sig, b < 256) :
    decodeVcJwt (fun b => Except.ok b) (fun b => Except.ok b)
      (assembleSignedJwt (encodeVcAsJwt stringifyHeader stringifyPayload header payload) sig)
      = Except.ok { header := stringifyHeader header, payload := stringifyPayload payload,
                    signature := sig,
                    signingInput :=
                      encodeVcAsJwt stringifyHeader stringifyPayload header payload } := by
  have hsplit : splitOnDot (assembleSignedJwt
        (encodeVcAsJwt stringifyHeader stringifyPayload header payload) sig)
      = [bytesToBase64url (stringifyHeader header),
         bytesToBase64url (stringifyPayload payload), bytesToBase64url sig] := by
    rw [assembleSignedJwt, encodeVcAsJwt, List.append_assoc, List.cons_append]
    rw [splitOnDot_append _ _ (urlEnc_no_dot _ hh)]
    rw [splitOnDot_append _ _ (urlEnc_no_dot _ hp)]
    rw [splitOnDot_no_dot _ (urlEnc_no_dot _ hs)]
  have r₀ := base64urlToBytes_bytesToBase64url (stringifyHeader header) hh
  have r₁ := base64urlToBytes_bytesToBase64url (stringifyPayload payload) hp
  have r₂ := base64urlToBytes_bytesToBase64url sig hs
  unfold decodeVcJwt
  rw [hsplit]
  simp only [r₀, r₁, r₂]
  rfl

theorem c8_vc_codec_roundtrip_witness :
    decodeVcJwt (fun b => Except.ok b) (fun b => Except.ok b)
      (assembleSignedJwt (encodeVcAsJwt id id [123, 34] [1, 255, 0]) [9, 250]) =
    Except.ok { header := [123, 34], payload := [1, 255, 0], signature := [9, 250],
                signingInput := encodeVcAsJwt id id [123, 34] [1, 255, 0] } :=
  c8_vc_codec_roundtrip id id [123, 34] [1, 255, 0] [9, 250]
    (by decide) (by decide) (by decide)

theorem decodeVcJwt_not3 {H P : Type} (ph : List Nat → Except String H)
    (pp : List Nat → Except String P) (jwt : List Char)
    (h : (splitOnDot jwt).length ≠ 3) :
    decodeVcJwt ph pp jwt = Except.error "Invalid JWT: expected 3 parts" := by
  unfold decodeVcJwt
  rcases hs : splitOnDot jwt with _ | ⟨a, _ | ⟨b, _ | ⟨c, _ | ⟨d, rest⟩⟩⟩⟩
  · rfl
  · rfl
  · rfl
  · exact absurd (by rw [hs]; rfl) h
  · rfl

/-- A fixed decoded header value for instantiating the parser stage. -/
def trivialHeader : VcJwtHeader := { alg := "EdDSA", kid := "k", typ := "JWT" }

/-- A fixed decoded payload (no numeric `nbf`/`exp`) for instantiating
the parser stage. -/
def trivialPayload : LinkageVcPayload :=
  { iss := "i", sub := "s", jti := "j", nbf := none, iat := none, exp := none,
    vc := { context := [], type := [], credentialSubjectId := "",
            linkage := { didWebs := "", didIota := "", lei := "",
                         designatedAliasesSaid := "" } } }

/-- C2 counterexample: on the 2-segment envelope "a.b",
`verifyVcSignature` propagates the thrown decode error — the result is
not `false` (and on a 4-segment envelope likewise); the claim that it
returns `false` and never throws for such envelopes is false of the
code. -/
theorem c2_counterexample :
    verifyVcSignature (fun _ => Except.ok trivialHeader)
      (fun _ => Except.ok trivialPayload) (fun _ _ _ => true) 0 []
      ['a', '.', 'b'] = Except.error "Invalid JWT: expected 3 parts" ∧
    verifyVcSignature (fun _ => Except.ok trivialHeader)
      (fun _ => Except.ok trivialPayload) (fun _ _ _ => true) 0 []
      ['a', '.', 'b', '.', 'c', '.', 'd'] = Except.error "Invalid JWT: expected 3 parts" := by
  exact ⟨rfl, rfl⟩

/-- C2 (amended): for every envelope whose segment count is not exactly 3,
`verifyVcSignature` propagates the decode error "Invalid JWT: expected 3
parts" instead of returning a verdict — a decode failure is a clearly
distinguished error and never a silent `true`; and for every 3-segment
envelope that decodes and is not expired, the result is exactly the
cryptographic check's verdict, so a tampered signature yields `false`
exactly when the crypto layer rejects it. -/
theorem c2_verifyVcSignature_malformed {H : Type}
    (ph : List Nat → Except String H)
    (pp : List Nat → Except String LinkageVcPayload)
    (cv : List Nat → List Nat → List Char → Bool) (now : Int) (pk : List Nat) :
    (∀ jwt : List Char, (splitOnDot jwt).length ≠ 3 →
      verifyVcSignature ph pp cv now pk jwt
        = Except.error "Invalid JWT: expected 3 parts") ∧
    (∀ (jwt : List Char) (d : DecodedVcJwt H LinkageVcPayload),
      decodeVcJwt ph pp jwt = Except.ok d →
      (nbfRejects now d.payload.nbf || expRejects now d.payload.exp) = false →
      verifyVcSignature ph pp cv now pk jwt
        = Except.ok (cv pk d.signature d.signingInput)) := by
  constructor
  · intro jwt h
    simp [verifyVcSignature, isVcExpired, decodeVcJwt_not3 ph pp jwt h]
  · intro jwt d hd hexp
    simp [verifyVcSignature, isVcExpired, hd, hexp]

/-- Concrete 3-segment envelope out of base64url segments. -/
def c2jwt : List Char := ['a', 'a', '.', 'a', 'b', '.', 'a', 'c']

/-- The decode of `c2jwt` under the trivial parsers. -/
def c2d : DecodedVcJwt VcJwtHeader LinkageVcPayload :=
  { header := trivialHeader, payload := trivialPayload, signature := [105],
    signingInput := ['a', 'a', '.', 'a', 'b'] }

theorem c2_verifyVcSignature_malformed_witness :
    verifyVcSignature (fun _ => Except.ok trivialHeader)
      (fun _ => Except.ok trivialPayload) (fun _ _ _ => false) 0 [] ['x']
      = Except.error "Invalid JWT: expected 3 parts" ∧
    verifyVcSignature (fun _ => Except.ok trivialHeader)
      (fun _ => Except.ok trivialPayload) (fun _ _ _ => false) 0 [] c2jwt
      = Except.ok false := by
  have h := c2_verifyVcSignature_malformed (fun _ => Except.ok trivialHeader)
    (fun _ => Except.ok trivialPayload) (fun _ _ _ => false) 0 []
  refine ⟨h.1 ['x'] (by decide), ?_⟩
  exact h.2 c2jwt c2d (by rfl) (by rfl)

/-- C9: a payload without a numeric `exp` never trips the expiry guard
and one without a numeric `nbf` never trips the not-before guard, so for
a decodable envelope whose payload lacks both, `isVcExpired` is `false`
and `verifyVcSignature` proceeds to the cryptographic check. -/
theorem c9_missing_exp_nbf_not_expired {H : Type}
    (ph : List Nat → Except String H)
    (pp : List Nat → Except String LinkageVcPayload)
    (cv : List Nat → List Nat → List Char → Bool) (now : Int) (pk : List Nat) :
    nbfRejects now none = false ∧
    expRejects now none = false ∧
    (∀ (jwt : List Char) (d : DecodedVcJwt H LinkageVcPayload),
      decodeVcJwt ph pp jwt = Except.ok d →
      d.payload.nbf = none → d.payload.exp = none →
      isVcExpired ph pp now jwt = Except.ok false ∧
      verifyVcSignature ph pp cv now pk jwt
        = Except.ok (cv pk d.signature d.signingInput)) := by
  refine ⟨rfl, rfl, ?_⟩
  intro jwt d hd hnbf hexp
  constructor
  · simp [isVcExpired, hd, hnbf, hexp, nbfRejects, expRejects]
  · simp [verifyVcSignature, isVcExpired, hd, hnbf, hexp, nbfRejects, expRejects]

theorem c9_missing_exp_nbf_not_expired_witness :
    isVcExpired (fun _ => Except.ok trivialHeader)
      (fun _ => Except.ok trivialPayload) 999999 c2jwt = Except.ok false ∧
    verifyVcSignature (fun _ => Except.ok trivialHeader)
      (fun _ => Except.ok trivialPayload) (fun _ _ _ => true) 999999 [] c2jwt
      = Except.ok true := by
  have h := (c9_missing_exp_nbf_not_expired (fun _ => Except.ok trivialHeader)
    (fun _ => Except.ok trivialPayload) (fun _ _ _ => true) 999999 []).2.2
    c2jwt c2d (by rfl) (by rfl) (by rfl)
  exact ⟨h.1, h.2⟩

/-! ### DID documents and extractors (types/did.ts, did/extractors.ts) -/

/-- `s.startsWith(p)` at the char level. -/
def charsStartWith : List Char → List Char → Bool
  | _, [] => true
  | [], _ :: _ => false
  | c :: cs, p :: ps => c == p && charsStartWith cs ps

/-- JS `String.prototype.startsWith`. -/
def strStartsWith (s p : String) : Bool := charsStartWith s.toList p.toList

/-- JS `String.prototype.split` with a one-char separator. -/
def splitOnChar (sep : Char) : List Char → List (List Char)
  | [] => [[]]
  | c :: rest =>
    if c = sep then [] :: splitOnChar sep rest
    else
      match splitOnChar sep rest with
      | [] => [[c]]
      | seg :: segs => (c :: seg) :: segs

/-- A service endpoint value: string, array of strings, or other object
(the TS type also allows `Record<string, unknown>`). -/
inductive ServiceEndpoint where
  | str (s : String)
  | arr (l : List String)
  | obj
  deriving Repr, DecidableEq

/-- Service entry of a DID document (`DIDService`). -/
structure DIDService where
  id : String
  type : String
  serviceEndpoint : ServiceEndpoint
  deriving Repr, DecidableEq

/-- W3C DID document (`DIDDocument` in types/did.ts), restricted to the
fields the verifier reads; `alsoKnownAs` and `service` are `none` when
the JSON field is absent/non-array. -/
structure DIDDocument where
  id : String
  alsoKnownAs : Option (List String)
  service : Option (List DIDService)
  deriving Repr, DecidableEq

/-- `extractDidByPrefix` (did/extractors.ts): the first `alsoKnownAs`
entry with the given scheme, `null` when the field is absent or not an
array. -/
def extractDidWithScheme (doc : DIDDocument) (scheme : String) : Option String :=
  match doc.alsoKnownAs with
  | none => none
  | some l => l.find? (fun a => strStartsWith a scheme)

/-- `extractIotaDid`. -/
def extractIotaDid (doc : DIDDocument) : Option String :=
  extractDidWithScheme doc "did:iota:"

/-- Service scan of `extractKeriServiceEndpoint`: a matched type returns
a string endpoint, or the first entry of a non-empty array endpoint;
otherwise the scan continues. -/
def findKeriService : List DIDService → Option String
  | [] => none
  | svc :: rest =>
    if (["KERIAgent", "KERI", "vLEICredentialService", "LinkedDomains"]).any
        (fun t => svc.type == t) || strIncludes svc.type "KERI"
        || strIncludes svc.type "vLEI" then
      match svc.serviceEndpoint with
      | .str s => some s
      | .arr (e :: _) => some e
      | _ => findKeriService rest
    else findKeriService rest

/-- `extractKeriServiceEndpoint` (did/extractors.ts). -/
def extractKeriServiceEndpoint (doc : DIDDocument) : Option String :=
  match doc.service with
  | none => none
  | some services => findKeriService services

/-- `extractAidFromDidWebs` (did/extractors.ts): last colon-separated
segment of a `did:webs:` identifier. -/
def extractAidFromDidWebs (didWebs : String) : Option String :=
  let parts := (splitOnChar ':' didWebs.toList).map (fun l => String.mk l)
  if 3 ≤ parts.length ∧ parts.getD 0 "" = "did" ∧ parts.getD 1 "" = "webs" then
    some (parts.getD (parts.length - 1) "")
  else none

/-! ### DidLinkingVerifier (kel-publisher.ts, second unit)

External collaborators (`deps`) are injected functions exactly as in the
source; fallible ones return `Except String` carrying the error message
(`getErrorMessage` reduces to the identity on these).  The paired IOTA
document's `alsoKnownAs` is typed `any` in the source; it is modelled as
missing, a single string, or an array of strings. -/

/-- The loosely-typed `alsoKnownAs` of an IOTA DID document. -/
inductive IotaAka where
  | missing
  | str (s : String)
  | arr (l : List String)
  deriving Repr, DecidableEq

/-- `IotaDidDocLike`. -/
structure IotaDidDoc where
  id : String
  alsoKnownAs : IotaAka
  deriving Repr, DecidableEq

/-- `extractWebsDid` (did/extractors.ts) as applied to the resolved IOTA
document: first `alsoKnownAs` entry starting with `did:webs:`, and `null`
whenever the field is not an array (`Array.isArray` guard). -/
def extractWebsDid (doc : IotaDidDoc) : Option String :=
  match doc.alsoKnownAs with
  | .arr l => l.find? (fun a => strStartsWith a "did:webs:")
  | _ => none

/-- The `Array.isArray(iotaAka) ? iotaAka : iotaAka ? [String(iotaAka)] : []`
normalization (an empty string is falsy). -/
def normalizeIotaAka : IotaAka → List String
  | .arr l => l
  | .str s => if s == "" then [] else [s]
  | .missing => []

/-- JS `x || undefined` on a nullable string (empty string is falsy). -/
def orUndefined : Option String → Option String
  | some s => if s == "" then none else some s
  | none => none

/-- The injected dependencies (`DidLinkingDeps`). -/
structure DidLinkingDeps where
  resolveDidWebs : String → Except String DIDDocument
  getDidDocument : String → String → String → Except String DIDDocument
  resolveIotaDid : String → Except String IotaDidDoc
  extractWebsDid : IotaDidDoc → Option String
  verifyLeCredential : Unit → Except String VerificationResult

/-- The verifier's result (`DidLinkingVerificationResult`); fields the
source always assigns in its return statements are non-optional here. -/
structure DidLinkingVerificationResult where
  verified : Bool
  revoked : Bool
  leAid : String
  leLei : String
  credentialSaid : String
  timestamp : String
  error : Option String
  didWebs : String
  linkedIotaDid : Option String
  bidirectional : Bool
  keriServiceEndpoint : Option String
  websDocument : DIDDocument
  iotaDocument : Option IotaDidDoc
  websAlsoKnownAs : List String
  iotaAlsoKnownAs : Option (List String)
  daVerified : Bool
  deriving Repr, DecidableEq

/-- Step 1 of `DidLinkingVerifier.verify`: dkr resolver first, local KEL
publisher fallback, both-failed error naming both causes; the boolean is
`resolvedViaDkr`. -/
def resolveSubjectDocument (deps : DidLinkingDeps) (domain path didWebs aid : String) :
    Except String (DIDDocument × Bool) :=
  match deps.resolveDidWebs didWebs with
  | .ok d => .ok (d, true)
  | .error resolverMessage =>
    match deps.getDidDocument aid domain path with
    | .ok d => .ok (d, false)
    | .error kelMessage =>
      .error ("Failed to resolve " ++ didWebs ++ ": Resolver: " ++ resolverMessage ++
        ", KEL publisher: " ++ kelMessage)

/-- The document sanity check
(`!didDocument || !didDocument.id || didDocument.id.includes('Keystore')`). -/
def invalidDocument (doc : DIDDocument) : Bool :=
  doc.id == "" || strIncludes doc.id "Keystore"

/-- Step 3 of `verify`: resolve the paired IOTA document and compute
`(bidirectional, iotaAlsoKnownAs, iotaDocumentResolved)`; a resolution
failure leaves all three at their defaults. -/
def bidirectionalStep (deps : DidLinkingDeps) (didWebs : String)
    (linkedIotaDid : Option String) : Bool × Option (List String) × Option IotaDidDoc :=
  match linkedIotaDid with
  | none => (false, none, none)
  | some iotaDid =>
    match deps.resolveIotaDid iotaDid with
    | .error _ => (false, none, none)
    | .ok iotaDocument =>
      (deps.extractWebsDid iotaDocument == some didWebs,
       some (normalizeIotaAka iotaDocument.alsoKnownAs),
       some iotaDocument)

namespace DidLinkingVerifier

/-- `DidLinkingVerifier.verify` (kel-publisher.ts): the full linking
flow; `domain`/`path` are the constructor config and `nowTs` models
`isoTimestamp()` in the failure branch. -/
def verify (deps : DidLinkingDeps) (domain path nowTs didWebs : String) :
    Except String DidLinkingVerificationResult :=
  match extractAidFromDidWebs didWebs with
  | none => .error ("Invalid did:webs format: " ++ didWebs)
  | some aid =>
    match resolveSubjectDocument deps domain path didWebs aid with
    | .error e => .error e
    | .ok (didDocument, resolvedViaDkr) =>
      if invalidDocument didDocument then
        .error ("Invalid DID document for " ++ didWebs)
      else
        let daVerified := resolvedViaDkr && decide (0 < (didDocument.alsoKnownAs.getD []).length)
        let linkedIotaDid := extractIotaDid didDocument
        let keriEndpoint := extractKeriServiceEndpoint didDocument
        let step := bidirectionalStep deps didWebs linkedIotaDid
        match deps.verifyLeCredential () with
        | .ok vr =>
          .ok { verified := vr.verified, revoked := vr.revoked, leAid := vr.leAid,
                leLei := vr.leLei, credentialSaid := vr.credentialSaid,
                timestamp := vr.timestamp, error := vr.error,
                didWebs := didWebs, linkedIotaDid := orUndefined linkedIotaDid,
                bidirectional := step.1, keriServiceEndpoint := orUndefined keriEndpoint,
                websDocument := didDocument, iotaDocument := step.2.2,
                websAlsoKnownAs := didDocument.alsoKnownAs.getD [],
                iotaAlsoKnownAs := step.2.1, daVerified := daVerified }
        | .error e =>
          .ok { verified := false, revoked := false, leAid := "", leLei := "",
                credentialSaid := "", timestamp := nowTs,
                error := some ("Verification failed: " ++ e),
                didWebs := didWebs, linkedIotaDid := orUndefined linkedIotaDid,
                bidirectional := step.1, keriServiceEndpoint := orUndefined keriEndpoint,
                websDocument := didDocument, iotaDocument := step.2.2,
                websAlsoKnownAs := didDocument.alsoKnownAs.getD [],
                iotaAlsoKnownAs := step.2.1, daVerified := false }

end DidLinkingVerifier

/-! ### Theorems for the verifier claims -/

/-- Subject document resolved via dkr with a non-empty alias list (so the
step-3 `daVerified` computes to `true`). -/
def c3SubjectDoc : DIDDocument :=
  { id := "did:webs:example.com:keri:AAA", alsoKnownAs := some ["did:iota:testnet:0xBEEF"],
    service := none }

/-- Deps for which credential-chain verification fails. -/
def c3DepsFail : DidLinkingDeps :=
  { resolveDidWebs := fun _ => .ok c3SubjectDoc,
    getDidDocument := fun _ _ _ => .error "unused",
    resolveIotaDid := fun _ => .error "network error",
    extractWebsDid := extractWebsDid,
    verifyLeCredential := fun _ => .error "Sally unreachable" }

/-- A succeeding credential-chain outcome. -/
def chainOkResult : VerificationResult :=
  { verified := true, revoked := false, leAid := "le", leLei := "lei",
    credentialSaid := "said", timestamp := "t", error := none }

/-- The same deps with a succeeding credential-chain verification. -/
def c3DepsOk : DidLinkingDeps :=
  { c3DepsFail with verifyLeCredential := fun _ => .ok chainOkResult }

/-- C3 counterexample: on a run where step 3 computed `daVerified = true`
(dkr resolution with non-empty aliases — visible in the success-branch
result of the same deps) and credential-chain verification fails, the
failure result carries `daVerified = false`, not the gathered value: the
claim that every gathered linkage field including `daVerified` is
included unchanged is false of the code. -/
theorem c3_counterexample :
    (DidLinkingVerifier.verify c3DepsOk "localhost" "keri" "now"
        "did:webs:example.com:keri:AAA").map (fun r => r.daVerified) = Except.ok true ∧
    (DidLinkingVerifier.verify c3DepsFail "localhost" "keri" "now"
        "did:webs:example.com:keri:AAA").map (fun r => r.daVerified) = Except.ok false ∧
    (DidLinkingVerifier.verify c3DepsFail "localhost" "keri" "now"
        "did:webs:example.com:keri:AAA").map (fun r => r.error)
      = Except.ok (some "Verification failed: Sally unreachable") :=
  ⟨rfl, rfl, rfl⟩

/-- C3 (amended): when credential-chain verification fails, the result is
`verified = false` with the failure message, and every linkage field
gathered in the earlier steps — `didWebs`, the linked IOTA identifier,
the `bidirectional` flag, both documents, both alias lists, the KERI
service endpoint — is included unchanged, with the single exception of
`daVerified`, which the failure branch hardcodes to `false` regardless of
the value computed in step 3. -/
theorem c3_failure_branch_fields (deps : DidLinkingDeps)
    (domain path nowTs didWebs aid : String) (doc : DIDDocument) (viaDkr : Bool)
    (e : String)
    (haid : extractAidFromDidWebs didWebs = some aid)
    (hres : resolveSubjectDocument deps domain path didWebs aid = Except.ok (doc, viaDkr))
    (hvalid : invalidDocument doc = false)
    (hfail : deps.verifyLeCredential () = Except.error e) :
    DidLinkingVerifier.verify deps domain path nowTs didWebs = Except.ok
      { verified := false, revoked := false, leAid := "", leLei := "",
        credentialSaid := "", timestamp := nowTs,
        error := some ("Verification failed: " ++ e),
        didWebs := didWebs,
        linkedIotaDid := orUndefined (extractIotaDid doc),
        bidirectional := (bidirectionalStep deps didWebs (extractIotaDid doc)).1,
        keriServiceEndpoint := orUndefined (extractKeriServiceEndpoint doc),
        websDocument := doc,
        iotaDocument := (bidirectionalStep deps didWebs (extractIotaDid doc)).2.2,
        websAlsoKnownAs := doc.alsoKnownAs.getD [],
        iotaAlsoKnownAs := (bidirectionalStep deps didWebs (extractIotaDid doc)).2.1,
        daVerified := false } := by
  simp [DidLinkingVerifier.verify, haid, hres, hvalid, hfail]

theorem c3_failure_branch_fields_witness :
    DidLinkingVerifier.verify c3DepsFail "localhost" "keri" "now"
        "did:webs:example.com:keri:AAA" = Except.ok
      { verified := false, revoked := false, leAid := "", leLei := "",
        credentialSaid := "", timestamp := "now",
        error := some ("Verification failed: " ++ "Sally unreachable"),
        didWebs := "did:webs:example.com:keri:AAA",
        linkedIotaDid := orUndefined (extractIotaDid c3SubjectDoc),
        bidirectional := (bidirectionalStep c3DepsFail "did:webs:example.com:keri:AAA"
          (extractIotaDid c3SubjectDoc)).1,
        keriServiceEndpoint := orUndefined (extractKeriServiceEndpoint c3SubjectDoc),
        websDocument := c3SubjectDoc,
        iotaDocument := (bidirectionalStep c3DepsFail "did:webs:example.com:keri:AAA"
          (extractIotaDid c3SubjectDoc)).2.2,
        websAlsoKnownAs := c3SubjectDoc.alsoKnownAs.getD [],
        iotaAlsoKnownAs := (bidirectionalStep c3DepsFail "did:webs:example.com:keri:AAA"
          (extractIotaDid c3SubjectDoc)).2.1,
        daVerified := false } :=
  c3_failure_branch_fields c3DepsFail "localhost" "keri" "now"
    "did:webs:example.com:keri:AAA" "AAA" c3SubjectDoc true "Sally unreachable"
    rfl rfl rfl rfl

/-- C4's subject identifier. -/
def c4SubjectDid : String := "did:webs:example.com:keri:AAA4"

/-- C4's subject document, linking to one IOTA identifier. -/
def c4SubjectDoc : DIDDocument :=
  { id := c4SubjectDid, alsoKnownAs := some ["did:iota:testnet:0xBEEF"], service := none }

/-- C4's paired IOTA document: its alias array contains the subject
identifier exactly, but a different `did:webs:` entry comes first. -/
def c4IotaDoc : IotaDidDoc :=
  { id := "did:iota:testnet:0xBEEF",
    alsoKnownAs := .arr ["did:webs:other", c4SubjectDid] }

/-- C4's deps, wired to the source extractor. -/
def c4Deps : DidLinkingDeps :=
  { resolveDidWebs := fun _ => .ok c4SubjectDoc,
    getDidDocument := fun _ _ _ => .error "unused",
    resolveIotaDid := fun _ => .ok c4IotaDoc,
    extractWebsDid := extractWebsDid,
    verifyLeCredential := fun _ => .ok chainOkResult }

/-- C4 counterexample: the paired document's alias list contains an entry
exactly equal to the subject's identifier (as the result's own
`iotaAlsoKnownAs` echo shows), yet `bidirectional` is `false`, because
the code compares only the first `did:webs:`-prefixed entry of the alias
array — the claim's "exactly when the normalized alias list contains some
entry equal to the subject identifier" is false of the code. -/
theorem c4_counterexample :
    (DidLinkingVerifier.verify c4Deps "localhost" "keri" "now" c4SubjectDid).map
        (fun r => r.bidirectional) = Except.ok false ∧
    (DidLinkingVerifier.verify c4Deps "localhost" "keri" "now" c4SubjectDid).map
        (fun r => r.iotaAlsoKnownAs)
      = Except.ok (some ["did:webs:other", c4SubjectDid]) ∧
    ["did:webs:other", c4SubjectDid].contains c4SubjectDid = true :=
  ⟨rfl, rfl, rfl⟩

/-- C4 (amended): with the source extractor wired in, `verify` sets
`bidirectional = true` exactly when the first `did:webs:`-prefixed entry
of the paired document's `alsoKnownAs` array equals the subject's
identifier; a non-array alias field (including a single string value)
yields `none` from the extractor and hence `bidirectional = false` — no
normalization to a list happens for this comparison. -/
theorem c4_bidirectional_first_webs_alias (deps : DidLinkingDeps)
    (domain path nowTs didWebs aid : String) (doc : DIDDocument) (viaDkr : Bool)
    (iotaDid : String) (idoc : IotaDidDoc)
    (haid : extractAidFromDidWebs didWebs = some aid)
    (hres : resolveSubjectDocument deps domain path didWebs aid = Except.ok (doc, viaDkr))
    (hvalid : invalidDocument doc = false)
    (hlink : extractIotaDid doc = some iotaDid)
    (hiota : deps.resolveIotaDid iotaDid = Except.ok idoc)
    (hwire : deps.extractWebsDid = extractWebsDid) :
    (DidLinkingVerifier.verify deps domain path nowTs didWebs).map (fun r => r.bidirectional)
      = Except.ok (extractWebsDid idoc == some didWebs) ∧
    (∀ s, idoc.alsoKnownAs = IotaAka.str s → extractWebsDid idoc = none) ∧
    (extractWebsDid idoc = none → (extractWebsDid idoc == some didWebs) = false) ∧
    (∀ l, idoc.alsoKnownAs = IotaAka.arr l →
      extractWebsDid idoc = l.find? (fun a => strStartsWith a "did:webs:")) := by
  refine ⟨?_, ?_, ?_, ?_⟩
  · rcases hv : deps.verifyLeCredential () with e | vr <;>
      simp [DidLinkingVerifier.verify, haid, hres, hvalid, hlink,
        bidirectionalStep, hiota, hwire, hv, Except.map]
  · intro s hs
    simp [extractWebsDid, hs]
  · intro hn
    simp [hn]
  · intro l hl
    simp [extractWebsDid, hl]

theorem c4_bidirectional_first_webs_alias_witness :
    (DidLinkingVerifier.verify c4Deps "localhost" "keri" "now" c4SubjectDid).map
        (fun r => r.bidirectional)
      = Except.ok (extractWebsDid c4IotaDoc == some c4SubjectDid) ∧
    extractWebsDid c4IotaDoc = some "did:webs:other" :=
  ⟨(c4_bidirectional_first_webs_alias c4Deps "localhost" "keri" "now" c4SubjectDid
      "AAA4" c4SubjectDoc true "did:iota:testnet:0xBEEF" c4IotaDoc
      rfl rfl rfl rfl rfl rfl).1, rfl⟩

/-! ### KelPublisher (kel-publisher.ts, first unit)

`getDidDocument` touches four externals: `getClient` (may be null or
throw), the DA-credential fetch (`fetchDesignatedAliases`, which caches
and never throws — its outcome is `daResult`), the SignifyClient key-state
query, and the HTTP key-state fallback.  Each is a field of
`KelPublisherEnv` describing its outcome for the call under analysis. -/

/-- JWK as produced by `keriKeyToJwk` (utils/signify.ts). -/
structure JWK where
  kid : Option String
  kty : String
  crv : Option String
  x : Option String
  deriving Repr, DecidableEq

/-- `keriKeyToJwk`: decode the qualified base64url key, drop the
derivation prefix byte, re-encode; `none` models the decode throw. -/
def keriKeyToJwk (keriKey : String) : Option JWK :=
  match base64urlToBytes keriKey.toList with
  | none => none
  | some fullBytes =>
    some { kid := some keriKey, kty := "OKP", crv := some "Ed25519",
           x := some (String.mk (bytesToBase64url (fullBytes.drop 1))) }

/-- KERI key state (`KeriKeyState`), restricted to the `k` list of
current signing keys the publisher reads. -/
structure KeriKeyState where
  k : List String
  deriving Repr, DecidableEq

/-- The `publicKeyJwk` of a did:webs verification method. -/
structure PublicKeyJwk where
  kid : String
  kty : String
  crv : String
  x : String
  deriving Repr, DecidableEq

/-- `DidWebsVerificationMethod`. -/
structure DidWebsVerificationMethod where
  id : String
  type : String
  controller : String
  publicKeyJwk : PublicKeyJwk
  deriving Repr, DecidableEq

/-- `DidWebsDocument`. -/
structure DidWebsDocument where
  id : String
  verificationMethod : List DidWebsVerificationMethod
  service : List DIDService
  alsoKnownAs : Option (List String)
  deriving Repr, DecidableEq

/-- JS `a || b` on a nullable string (empty string is falsy). -/
def jsOrString (o : Option String) (d : String) : String :=
  match o with
  | some s => if s == "" then d else s
  | none => d

/-- The did:webs identifier built from domain/path/aid (`path` is falsy
when empty). -/
def didWebsId (aid domain path : String) : String :=
  if path != "" then "did:webs:" ++ domain ++ ":" ++ path ++ ":" ++ aid
  else "did:webs:" ++ domain ++ ":" ++ aid

/-- The `did:keri:` synthetic alias. -/
def didKeriId (aid : String) : String := "did:keri:" ++ aid

/-- The `did:web:` synthetic alias. -/
def didWebId (aid domain path : String) : String :=
  if path != "" then "did:web:" ++ domain ++ ":" ++ path ++ ":" ++ aid
  else "did:web:" ++ domain ++ ":" ++ aid

/-- The two namespace-equivalent synthetic aliases. -/
def syntheticAliases (aid domain path : String) : List String :=
  [didKeriId aid, didWebId aid domain path]

/-- The `keyState.k.map(...)` verification-method construction of
`buildDidDocument`; `none` models a `keriKeyToJwk` throw on some key. -/
def buildVerificationMethods (didId : String) (keys : List String) :
    Option (List DidWebsVerificationMethod) :=
  keys.mapM (fun key =>
    (keriKeyToJwk key).map (fun jwk =>
      ({ id := "#" ++ key, type := "JsonWebKey", controller := didId,
         publicKeyJwk := { kid := jsOrString jwk.kid key, kty := jwk.kty,
                           crv := jsOrString jwk.crv "Ed25519",
                           x := jsOrString jwk.x "" } } : DidWebsVerificationMethod)))

/-- `buildDidDocument` (kel-publisher.ts): verification methods from the
key state (a key-decode throw propagates as `none`), empty services, and
— only when `alsoKnownAs` is present and non-empty — the alias list with
the synthetic aliases appended when not already contained. -/
def buildDidDocument (aid : String) (keyState : KeriKeyState) (domain path : String)
    (alsoKnownAs : Option (List String)) : Option DidWebsDocument :=
  match buildVerificationMethods (didWebsId aid domain path) keyState.k with
  | none => none
  | some verificationMethods =>
    let doc : DidWebsDocument :=
      { id := didWebsId aid domain path, verificationMethod := verificationMethods,
        service := [], alsoKnownAs := none }
    some (match alsoKnownAs with
      | some aka =>
        if 0 < aka.length then
          { doc with alsoKnownAs := some (aka ++
              (syntheticAliases aid domain path).filter (fun i => !aka.contains i)) }
        else doc
      | none => doc)

/-- Outcomes of the externals for one `getDidDocument` call.
`getClientResult` is `ok none` for a null client and `error` for a throw;
`daResult` is the DA credential's `(ids, said)` when one parses. -/
structure KelPublisherEnv where
  getClientResult : Except String (Option Unit)
  daResult : Option (List String × String)
  keyStatesResult : Except String (List KeriKeyState)
  httpResult : Except String KeriKeyState

/-- True when `getClient` returned a client (did not throw, not null). -/
def clientPresent (env : KelPublisherEnv) : Bool :=
  match env.getClientResult with
  | .ok (some _) => true
  | _ => false

/-- The `alsoKnownAs` candidate derived in `getDidDocument`: only with a
live client and a DA result with a non-empty id list. -/
def daAlsoKnownAs (env : KelPublisherEnv) : Option (List String) :=
  match env.getClientResult with
  | .ok (some _) =>
    match env.daResult with
    | some (ids, _) => if 0 < ids.length then some ids else none
    | none => none
  | _ => none

/-- The key state obtained through the SignifyClient path: present only
with a live client, a non-throwing `keyStates().get`, and a non-empty
answer (anything else falls through to the HTTP fetch). -/
def clientKeyState (env : KelPublisherEnv) : Option KeriKeyState :=
  if clientPresent env then
    match env.keyStatesResult with
    | .ok (ks :: _) => some ks
    | _ => none
  else none

/-- The HTTP key-state fallback of `getDidDocument`: build from the
fetched key state, else (fetch failed, or the build threw inside the try)
the final "Unable to get key state" error. -/
def httpFallback (env : KelPublisherEnv) (aid domain path : String)
    (alsoKnownAs : Option (List String)) : Except String DidWebsDocument :=
  match env.httpResult with
  | .ok keyState =>
    match buildDidDocument aid keyState domain path alsoKnownAs with
    | some doc => .ok doc
    | none => .error ("Unable to get key state for AID: " ++ aid)
  | .error _ => .error ("Unable to get key state for AID: " ++ aid)

/-- `getDidDocument` (kel-publisher.ts): derive the alias candidates,
then key state via the client (falling through to the HTTP fetch on any
throw, empty answer, or build throw), then the HTTP fallback. -/
def getDidDocument (env : KelPublisherEnv) (aid domain path : String) :
    Except String DidWebsDocument :=
  match clientKeyState env with
  | some ks =>
    match buildDidDocument aid ks domain path (daAlsoKnownAs env) with
    | some doc => .ok doc
    | none => httpFallback env aid domain path (daAlsoKnownAs env)
  | none => httpFallback env aid domain path (daAlsoKnownAs env)

/-! ### Theorems for the publisher claim -/

theorem daAlsoKnownAs_pos (env : KelPublisherEnv) (ids : List String)
    (h : daAlsoKnownAs env = some ids) : 0 < ids.length := by
  rcases hg : env.getClientResult with e | oc
  · simp [daAlsoKnownAs, hg] at h
  · rcases oc with _ | u
    · simp [daAlsoKnownAs, hg] at h
    · rcases hd : env.daResult with _ | ⟨ids', said⟩
      · simp [daAlsoKnownAs, hg, hd] at h
      · by_cases hl : 0 < ids'.length
        · simp only [daAlsoKnownAs, hg, hd, if_pos hl, Option.some.injEq] at h
          rw [← h]
          exact hl
        · simp [daAlsoKnownAs, hg, hd, if_neg hl] at h

theorem buildDidDocument_aka_none (aid : String) (ks : KeriKeyState)
    (domain path : String) (doc : DidWebsDocument)
    (h : buildDidDocument aid ks domain path none = some doc) :
    doc.alsoKnownAs = none := by
  rcases hv : buildVerificationMethods (didWebsId aid domain path) ks.k with _ | vms
  · simp only [buildDidDocument, hv] at h
    exact Option.noConfusion h
  · simp only [buildDidDocument, hv, Option.some.injEq] at h
    rw [← h]

theorem buildDidDocument_aka_some (aid : String) (ks : KeriKeyState)
    (domain path : String) (l : List String) (doc : DidWebsDocument)
    (h : buildDidDocument aid ks domain path (some l) = some doc) :
    doc.alsoKnownAs = (if 0 < l.length then
      some (l ++ (syntheticAliases aid domain path).filter (fun i => !l.contains i))
    else none) := by
  rcases hv : buildVerificationMethods (didWebsId aid domain path) ks.k with _ | vms
  · simp only [buildDidDocument, hv] at h
    exact Option.noConfusion h
  · simp only [buildDidDocument, hv, Option.some.injEq] at h
    by_cases hl : 0 < l.length
    · simp only [if_pos hl] at h ⊢
      rw [← h]
    · simp only [if_neg hl] at h ⊢
      rw [← h]

theorem httpFallback_ok_build (env : KelPublisherEnv) (aid domain path : String)
    (aka : Option (List String)) (doc : DidWebsDocument)
    (h : httpFallback env aid domain path aka = Except.ok doc) :
    ∃ ks, buildDidDocument aid ks domain path aka = some doc := by
  rcases he : env.httpResult with e | ks
  · simp only [httpFallback, he] at h
    exact Except.noConfusion h
  · simp only [httpFallback, he] at h
    rcases hb : buildDidDocument aid ks domain path aka with _ | d
    · simp only [hb] at h
      exact Except.noConfusion h
    · simp only [hb, Except.ok.injEq] at h
      exact ⟨ks, by rw [hb, h]⟩

theorem getDidDocument_ok_build (env : KelPublisherEnv) (aid domain path : String)
    (doc : DidWebsDocument) (h : getDidDocument env aid domain path = Except.ok doc) :
    ∃ ks, buildDidDocument aid ks domain path (daAlsoKnownAs env) = some doc := by
  rcases hck : clientKeyState env with _ | ks
  · simp only [getDidDocument, hck] at h
    exact httpFallback_ok_build env aid domain path _ doc h
  · simp only [getDidDocument, hck] at h
    rcases hb : buildDidDocument aid ks domain path (daAlsoKnownAs env) with _ | d
    · simp only [hb] at h
      exact httpFallback_ok_build env aid domain path _ doc h
    · simp only [hb, Except.ok.injEq] at h
      exact ⟨ks, by rw [hb, h]⟩

/-- C7's environment: live client, no DA credential, key state with no
keys — the call succeeds with no aliases at all. -/
def c7Env : KelPublisherEnv :=
  { getClientResult := .ok (some ()), daResult := none,
    keyStatesResult := .ok [{ k := [] }], httpResult := .error "down" }

/-- C7 counterexample: a successful `getDidDocument` call for which the
subject's linkage credential is absent — the resulting document has no
`alsoKnownAs` at all, so the two synthetic aliases are *not* appended;
the claim that they are always appended on success is false of the
code. -/
theorem c7_counterexample :
    getDidDocument c7Env "AAA7" "example.com" "keri"
      = Except.ok { id := didWebsId "AAA7" "example.com" "keri",
                    verificationMethod := [], service := [], alsoKnownAs := none } :=
  rfl

/-- C7 (amended): on every successful `getDidDocument` call, the two
namespace-equivalent synthetic aliases are appended (when not already
present) only when the DA credential yielded a non-empty alias list, in
which case `alsoKnownAs` is exactly that list plus the missing synthetic
aliases; when the credential is absent or yields an empty list the
document carries no `alsoKnownAs` field at all — no synthetic aliases. -/
theorem c7_synthetic_aliases_only_with_da (env : KelPublisherEnv)
    (aid domain path : String) (doc : DidWebsDocument)
    (h : getDidDocument env aid domain path = Except.ok doc) :
    (daAlsoKnownAs env = none → doc.alsoKnownAs = none) ∧
    (∀ ids, daAlsoKnownAs env = some ids →
      doc.alsoKnownAs = some (ids ++
        (syntheticAliases aid domain path).filter (fun i => !ids.contains i))) := by
  obtain ⟨ks, hb⟩ := getDidDocument_ok_build env aid domain path doc h
  constructor
  · intro hnone
    rw [hnone] at hb
    exact buildDidDocument_aka_none aid ks domain path doc hb
  · intro ids hids
    rw [hids] at hb
    have ha := buildDidDocument_aka_some aid ks domain path ids doc hb
    rw [ha, if_pos (daAlsoKnownAs_pos env ids hids)]

/-- C7 witness environment: live client with a one-alias DA credential. -/
def c7EnvDa : KelPublisherEnv :=
  { getClientResult := .ok (some ()), daResult := some (["did:iota:testnet:0xBEEF"], "ESAID"),
    keyStatesResult := .ok [{ k := [] }], httpResult := .error "down" }

/-- The document `getDidDocument` produces for `c7EnvDa`. -/
def c7DaDoc : DidWebsDocument :=
  { id := didWebsId "AAA7" "example.com" "keri", verificationMethod := [], service := [],
    alsoKnownAs := some ["did:iota:testnet:0xBEEF", "did:keri:AAA7",
                         "did:web:example.com:keri:AAA7"] }

theorem c7_synthetic_aliases_only_with_da_witness :
    (getDidDocument c7Env "AAA7" "example.com" "keri").map (fun d => d.alsoKnownAs)
      = Except.ok none ∧
    (getDidDocument c7EnvDa "AAA7" "example.com" "keri").map (fun d => d.alsoKnownAs)
      = Except.ok (some (["did:iota:testnet:0xBEEF"] ++
          (syntheticAliases "AAA7" "example.com" "keri").filter
            (fun i => !(["did:iota:testnet:0xBEEF"] : List String).contains i))) := by
  constructor
  · have h := (c7_synthetic_aliases_only_with_da c7Env "AAA7" "example.com" "keri"
      { id := didWebsId "AAA7" "example.com" "keri", verificationMethod := [],
        service := [], alsoKnownAs := none } rfl).1 rfl
    have hg : getDidDocument c7Env "AAA7" "example.com" "keri" = Except.ok
        { id := didWebsId "AAA7" "example.com" "keri", verificationMethod := [],
          service := [], alsoKnownAs := none } := rfl
    rw [hg]
    exact congrArg Except.ok h
  · have h := (c7_synthetic_aliases_only_with_da c7EnvDa "AAA7" "example.com" "keri"
      c7DaDoc (by rfl)).2 ["did:iota:testnet:0xBEEF"] rfl
    have hg : getDidDocument c7EnvDa "AAA7" "example.com" "keri" = Except.ok c7DaDoc := by
      rfl
    rw [hg]
    exact congrArg Except.ok h

end GleifPoc
